import Mathlib

/-!
Verification of the 2D-to-3D detection projector of `detect_3d_node.py`
(yolov8_ros).  The node lifts 2D detections into 3D using a depth image and
camera intrinsics: depth-ROI sampling with a robust mean, keypoint
back-projection, and a rigid transform (quaternion rotation + translation).

Depth samples are modelled as exact rationals extended with NaN and the two
infinities, mirroring the IEEE-754 special values the numpy code manipulates.
Machine int16 truncation of keypoint coordinates is modelled with explicit
modular arithmetic on `Int`.
-/

/-- A depth sample: an exact rational value or one of the IEEE special
values (NaN, +inf, -inf) that the numpy code can encounter. -/
inductive DVal where
  | nan : DVal
  | inf : DVal
  | ninf : DVal
  | fin : ℚ → DVal
deriving DecidableEq

namespace DVal

/-- True exactly on NaN, as `np.isnan`. -/
def isNan : DVal → Bool
  | nan => true
  | _ => false

/-- True exactly on the two infinities, as `np.isinf`. -/
def isInf : DVal → Bool
  | inf => true
  | ninf => true
  | _ => false

/-- True exactly on finite values, as `np.isfinite`. -/
def isFinite : DVal → Bool
  | fin _ => true
  | _ => false

end DVal

/-- IEEE-style division of a depth sample by a rational, as numpy `/`.
Division by zero yields a signed infinity (or NaN for `0/0`). -/
def dvalDivQ : DVal → ℚ → DVal
  | DVal.nan, _ => DVal.nan
  | DVal.inf, d => if d < 0 then DVal.ninf else DVal.inf
  | DVal.ninf, d => if d < 0 then DVal.inf else DVal.ninf
  | DVal.fin a, d =>
    if d = 0 then
      (if 0 < a then DVal.inf else if a < 0 then DVal.ninf else DVal.nan)
    else DVal.fin (a / d)

/-- IEEE-style multiplication of a depth sample by a rational scalar,
as numpy `*`; `inf * 0` is NaN. -/
def dvalScale : DVal → ℚ → DVal
  | DVal.nan, _ => DVal.nan
  | DVal.inf, q => if 0 < q then DVal.inf else if q < 0 then DVal.ninf else DVal.nan
  | DVal.ninf, q => if 0 < q then DVal.ninf else if q < 0 then DVal.inf else DVal.nan
  | DVal.fin a, q => DVal.fin (a * q)

/-- Python `int()` applied to a float: truncation toward zero. -/
def pytrunc (q : ℚ) : ℤ :=
  if 0 ≤ q then ⌊q⌋ else ⌈q⌉

/-- numpy `clip(lo, hi)`: lower bound applied first, upper bound last. -/
def clampPy (z lo hi : ℤ) : ℤ :=
  min (max z lo) hi

/-- Cast of an integer to numpy `int16`: reduction modulo `2^16` into the
signed range `[-32768, 32767]`. -/
def toInt16 (z : ℤ) : ℤ :=
  (z + 32768) % 65536 - 32768

/-- Python slice-index normalization for a sequence of length `len`:
negative indices count from the end, and indices are clipped to `[0, len]`. -/
def pySliceIdx (len : ℕ) (i : ℤ) : ℕ :=
  if i < 0 then ((len : ℤ) + i).toNat else min i.toNat len

/-- The decoded depth image: shape plus raw sample at each (row, column). -/
structure DepthImage where
  width : ℕ
  height : ℕ
  pix : ℕ → ℕ → DVal

/-- Camera intrinsics from the `CameraInfo` message: the entries
`k[0], k[4], k[2], k[5]` of the calibration matrix plus declared size. -/
structure Intrinsics where
  fx : ℚ
  fy : ℚ
  px : ℚ
  py : ℚ
  width : ℕ
  height : ℕ

/-- Node configuration read once at setup. -/
structure Config where
  divisor : ℚ
  maxThreshold : ℚ
  targetFrame : String

/-- A 2D keypoint from the detection message: id, confidence score and
pixel position.  A default-constructed `KeyPoint2D()` is all zeros. -/
structure KP2D where
  id : ℕ
  score : ℚ
  x : ℚ
  y : ℚ
deriving DecidableEq

/-- A 3D bounding box message (`BoundingBox3D`). -/
structure Box3D where
  cx : ℚ
  cy : ℚ
  cz : ℚ
  sx : ℚ
  sy : ℚ
  sz : ℚ
  frame : String := ""
deriving DecidableEq

/-- A 3D keypoint message (`KeyPoint3D`): position plus carried id/score. -/
structure KP3D where
  x : DVal
  y : DVal
  z : DVal
  id : ℕ
  score : ℚ
deriving DecidableEq

/-- The `KeyPoint3DArray` message. -/
structure KP3DArr where
  data : List KP3D
  frame : String := ""
deriving DecidableEq

/-- A detection message: 2D box (center, size), keypoints, and the optional
3D fields filled in by the node. -/
structure Detection where
  bcx : ℚ
  bcy : ℚ
  bsx : ℚ
  bsy : ℚ
  kps : List KP2D
  bbox3d : Option Box3D := none
  kps3d : Option KP3DArr := none
deriving DecidableEq

/-- A rational 3-vector. -/
@[ext] structure Vec3 where
  x : ℚ
  y : ℚ
  z : ℚ
deriving DecidableEq

/-- A quaternion `(w, x, y, z)` with rational components. -/
structure Quat where
  w : ℚ
  x : ℚ
  y : ℚ
  z : ℚ
deriving DecidableEq

def vadd (a b : Vec3) : Vec3 := ⟨a.x + b.x, a.y + b.y, a.z + b.z⟩

def vsub (a b : Vec3) : Vec3 := ⟨a.x - b.x, a.y - b.y, a.z - b.z⟩

def vsmul (c : ℚ) (a : Vec3) : Vec3 := ⟨c * a.x, c * a.y, c * a.z⟩

def vcross (a b : Vec3) : Vec3 :=
  ⟨a.y * b.z - a.z * b.y, a.z * b.x - a.x * b.z, a.x * b.y - a.y * b.x⟩

/-- `qv_mult` from the source: `v + 2 * (uv * q[0] + uuv)` with
`uv = qvec × v` and `uuv = qvec × uv`. -/
def qv_mult (q : Quat) (v : Vec3) : Vec3 :=
  let qvec : Vec3 := ⟨q.x, q.y, q.z⟩
  let uv := vcross qvec v
  let uuv := vcross qvec uv
  vadd v (vsmul 2 (vadd (vsmul q.w uv) uuv))

/-- The conjugate (inverse for unit quaternions) of a quaternion. -/
def qconj (q : Quat) : Quat := ⟨q.w, -q.x, -q.y, -q.z⟩

/-- The cropped depth ROI of `convert_bb_to_3d` (source lines 211-222):
the numpy slice `depth_image[v_min:v_max, u_min:u_max]` divided by the
units divisor, with Python slice-index semantics. -/
def roiRows (cfg : Config) (img : DepthImage) (det : Detection) : List (List DVal) :=
  let cx := pytrunc det.bcx
  let cy := pytrunc det.bcy
  let sx := pytrunc det.bsx
  let sy := pytrunc det.bsy
  let uLo := pySliceIdx img.width (max (cx - Int.fdiv sx 2) 0)
  let uHi := pySliceIdx img.width (min (cx + Int.fdiv sx 2) ((img.width : ℤ) - 1))
  let vLo := pySliceIdx img.height (max (cy - Int.fdiv sy 2) 0)
  let vHi := pySliceIdx img.height (min (cy + Int.fdiv sy 2) ((img.height : ℤ) - 1))
  (List.range (vHi - vLo)).map (fun r =>
    (List.range (uHi - uLo)).map (fun c =>
      dvalDivQ (img.pix (vLo + r) (uLo + c)) cfg.divisor))

/-- Accumulator of the keypoint scan of `convert_bb_to_3d`
(source lines 228-251): candidate keypoints start as default-constructed
`KeyPoint2D()` messages (id 0, score 0, position (0,0)). -/
structure KPAcc where
  kp5 : KP2D := ⟨0, 0, 0, 0⟩
  kp6 : KP2D := ⟨0, 0, 0, 0⟩
  kp11 : KP2D := ⟨0, 0, 0, 0⟩
  kp12 : KP2D := ⟨0, 0, 0, 0⟩
  upDetected : Bool := false
  downDetected : Bool := false
deriving DecidableEq

/-- One step of the keypoint scan loop (source lines 239-251). -/
def kpStep (a : KPAcc) (kp : KP2D) : KPAcc :=
  if kp.id = 5 then { a with kp5 := kp, upDetected := true }
  else if kp.id = 6 then { a with kp6 := kp, upDetected := true }
  else if kp.id = 11 then { a with kp11 := kp, downDetected := true }
  else if kp.id = 12 then { a with kp12 := kp, downDetected := true }
  else a

/-- The keypoint scan of `convert_bb_to_3d`. -/
def collectAnchors (kps : List KP2D) : KPAcc :=
  kps.foldl kpStep {}

/-- The pixel-anchor resolution of `convert_bb_to_3d` (source lines
211-212 and 228-288): geometric box center by default, overridden by
shoulder/hip keypoints when present. -/
def resolveAnchor (det : Detection) : ℚ × ℚ :=
  let cx0 : ℚ := (pytrunc det.bcx : ℤ)
  let cy0 : ℚ := (pytrunc det.bcy : ℤ)
  let a := collectAnchors det.kps
  if a.upDetected && a.downDetected then
    let up := if a.kp5.score > a.kp6.score then a.kp5 else a.kp6
    let down := if a.kp11.score > a.kp12.score then a.kp11 else a.kp12
    ((up.x + down.x) / 2, (up.y + down.y) / 2)
  else if a.upDetected then
    let up := if a.kp5.score > a.kp6.score then a.kp5 else a.kp6
    (up.x, up.y)
  else if a.downDetected then
    let down := if a.kp11.score > a.kp12.score then a.kp11 else a.kp12
    (down.x, down.y)
  else (cx0, cy0)

/-- The strictly-positive finite samples of a depth list, in order:
the values selected by `roi[roi > 0]` on the invalid-masked ROI. -/
def posFinites (roi : List DVal) : List ℚ :=
  roi.filterMap (fun v =>
    match v with
    | DVal.fin q => if 0 < q then some q else none
    | _ => none)

/-- numpy mean of a list of rationals (sum divided by length). -/
def ratMean (l : List ℚ) : ℚ :=
  l.sum / (l.length : ℚ)

/-- The samples selected by the consensus mask
`|roi - mean| <= maximum_detection_threshold` (source lines 315-320):
only finite samples can satisfy the comparison. -/
def consensusOf (roi : List DVal) (m t : ℚ) : List ℚ :=
  roi.filterMap (fun v =>
    match v with
    | DVal.fin q => if |q - m| ≤ t then some q else none
    | _ => none)

/-- `np.max` of a nonempty rational list (0 on the empty list). -/
def listMax : List ℚ → ℚ
  | [] => 0
  | h :: t => t.foldl max h

/-- `np.min` of a nonempty rational list (0 on the empty list). -/
def listMin : List ℚ → ℚ
  | [] => 0
  | h :: t => t.foldl min h

/-- `convert_bb_to_3d` (source lines 203-340): crop the depth ROI, resolve
the pixel anchor, gate on the anchor depth sample, average the
strictly-positive finite ROI depths, build the consensus mask, and project
to a 3D box; every failure returns `none`. -/
def convert_bb_to_3d (cfg : Config) (img : DepthImage) (intr : Intrinsics)
    (det : Detection) : Option Box3D :=
  let sx := pytrunc det.bsx
  let sy := pytrunc det.bsy
  let roi := (roiRows cfg img det).flatten
  if roi.all (fun v => v == DVal.fin 0) then none
  else
    let anch := resolveAnchor det
    let acx := pytrunc anch.1
    let acy := pytrunc anch.2
    if acx < 0 ∨ (img.width : ℤ) ≤ acx ∨ acy < 0 ∨ (img.height : ℤ) ≤ acy then none
    else
      let zc := dvalDivQ (img.pix acy.toNat acx.toNat) cfg.divisor
      if zc.isNan || zc == DVal.fin 0 || zc.isInf then none
      else
        if roi.any DVal.isFinite && roi.any (fun v => v.isFinite && !(v == DVal.fin 0)) then
          let pos := posFinites roi
          if pos.isEmpty then none
          else
            let m := ratMean pos
            let cons := consensusOf roi m cfg.maxThreshold
            if cons.isEmpty then none
            else
              some { cx := m * ((acx : ℚ) - intr.px) / intr.fx
                   , cy := m * ((acy : ℚ) - intr.py) / intr.fy
                   , cz := m
                   , sx := m * ((sx : ℚ) / intr.fx)
                   , sy := m * ((sy : ℚ) / intr.fy)
                   , sz := listMax cons - listMin cons }
        else none

/-- The projection of one 2D keypoint inside `convert_keypoints_to_3d`
(source lines 349-362): the pixel coordinates are cast to numpy `int16`,
clipped to the declared image bounds, the depth is sampled there, and
`(z*(v-px)/fx, z*(u-py)/fy, z)` is divided by the units divisor. -/
def projectKP (cfg : Config) (img : DepthImage) (intr : Intrinsics)
    (p : KP2D) : DVal × DVal × DVal :=
  let xi := toInt16 (pytrunc p.x)
  let yi := toInt16 (pytrunc p.y)
  let u := clampPy yi 0 ((intr.height : ℤ) - 1)
  let v := clampPy xi 0 ((intr.width : ℤ) - 1)
  let z := img.pix u.toNat v.toNat
  let x := dvalDivQ (dvalScale z ((v : ℚ) - intr.px)) intr.fx
  let y := dvalDivQ (dvalScale z ((u : ℚ) - intr.py)) intr.fy
  (dvalDivQ x cfg.divisor, dvalDivQ y cfg.divisor, dvalDivQ z cfg.divisor)

/-- True when any component of a projected point is NaN, as
`np.isnan(p).any()`. -/
def hasNan3 (p : DVal × DVal × DVal) : Bool :=
  p.1.isNan || p.2.1.isNan || p.2.2.isNan

/-- `convert_keypoints_to_3d` (source lines 342-376): project every
keypoint and keep, in order, those whose position has no NaN component,
carrying id and score over. -/
def convert_keypoints_to_3d (cfg : Config) (img : DepthImage) (intr : Intrinsics)
    (det : Detection) : KP3DArr :=
  let pts := det.kps.map (projectKP cfg img intr)
  { data := (pts.zip det.kps).foldl (fun acc pd =>
      if hasNan3 pd.1 then acc
      else acc ++ [⟨pd.1.1, pd.1.2.1, pd.1.2.2, pd.2.id, pd.2.score⟩]) [] }

/-- A 3-vector of depth values (possibly NaN/inf), for keypoint positions. -/
structure DVec3 where
  x : DVal
  y : DVal
  z : DVal
deriving DecidableEq

/-- IEEE-style addition of depth values: NaN propagates and
`inf + (-inf)` is NaN. -/
def dAdd : DVal → DVal → DVal
  | DVal.nan, _ => DVal.nan
  | _, DVal.nan => DVal.nan
  | DVal.inf, DVal.ninf => DVal.nan
  | DVal.ninf, DVal.inf => DVal.nan
  | DVal.inf, _ => DVal.inf
  | _, DVal.inf => DVal.inf
  | DVal.ninf, _ => DVal.ninf
  | _, DVal.ninf => DVal.ninf
  | DVal.fin a, DVal.fin b => DVal.fin (a + b)

/-- IEEE-style negation of a depth value. -/
def dNeg : DVal → DVal
  | DVal.nan => DVal.nan
  | DVal.inf => DVal.ninf
  | DVal.ninf => DVal.inf
  | DVal.fin a => DVal.fin (-a)

/-- IEEE-style subtraction of depth values. -/
def dSub (a b : DVal) : DVal := dAdd a (dNeg b)

/-- IEEE-style multiplication of depth values: NaN propagates and
`inf * 0` is NaN. -/
def dMul : DVal → DVal → DVal
  | DVal.nan, _ => DVal.nan
  | _, DVal.nan => DVal.nan
  | DVal.inf, DVal.inf => DVal.inf
  | DVal.inf, DVal.ninf => DVal.ninf
  | DVal.ninf, DVal.inf => DVal.ninf
  | DVal.ninf, DVal.ninf => DVal.inf
  | DVal.inf, DVal.fin b => if 0 < b then DVal.inf else if b < 0 then DVal.ninf else DVal.nan
  | DVal.fin a, DVal.inf => if 0 < a then DVal.inf else if a < 0 then DVal.ninf else DVal.nan
  | DVal.ninf, DVal.fin b => if 0 < b then DVal.ninf else if b < 0 then DVal.inf else DVal.nan
  | DVal.fin a, DVal.ninf => if 0 < a then DVal.ninf else if a < 0 then DVal.inf else DVal.nan
  | DVal.fin a, DVal.fin b => DVal.fin (a * b)

def dvAdd (a b : DVec3) : DVec3 := ⟨dAdd a.x b.x, dAdd a.y b.y, dAdd a.z b.z⟩

def dvScale (c : ℚ) (a : DVec3) : DVec3 :=
  ⟨dMul (DVal.fin c) a.x, dMul (DVal.fin c) a.y, dMul (DVal.fin c) a.z⟩

def dvCross (a b : DVec3) : DVec3 :=
  ⟨dSub (dMul a.y b.z) (dMul a.z b.y),
   dSub (dMul a.z b.x) (dMul a.x b.z),
   dSub (dMul a.x b.y) (dMul a.y b.x)⟩

/-- `qv_mult` applied to a keypoint position that may hold IEEE special
values (numpy applies the same formula uniformly to float arrays). -/
def qv_mult_dval (q : Quat) (v : DVec3) : DVec3 :=
  let qvec : DVec3 := ⟨DVal.fin q.x, DVal.fin q.y, DVal.fin q.z⟩
  let uv := dvCross qvec v
  let uuv := dvCross qvec uv
  dvAdd v (dvScale 2 (dvAdd (dvScale q.w uv) uuv))

/-- `transform_3d_box` (source lines 404-435): rotate the center and add
the translation; rotate the size vector and take component-wise absolute
values. -/
def transform_3d_box (b : Box3D) (translation : Vec3) (rotation : Quat) : Box3D :=
  let p := vadd (qv_mult rotation ⟨b.cx, b.cy, b.cz⟩) translation
  let s := qv_mult rotation ⟨b.sx, b.sy, b.sz⟩
  { b with cx := p.x, cy := p.y, cz := p.z,
           sx := |s.x|, sy := |s.y|, sz := |s.z| }

/-- `transform_3d_keypoints` (source lines 437-458): rotate and translate
every keypoint position, leaving id and score untouched. -/
def transform_3d_keypoints (arr : KP3DArr) (translation : Vec3) (rotation : Quat) :
    KP3DArr :=
  { arr with data := arr.data.map (fun kp =>
      let pos := dvAdd (qv_mult_dval rotation ⟨kp.x, kp.y, kp.z⟩)
        ⟨DVal.fin translation.x, DVal.fin translation.y, DVal.fin translation.z⟩
      { kp with x := pos.x, y := pos.y, z := pos.z }) }

/-- The per-detection enrichment of `process_detections` (source lines
185-199): attach the transformed 3D box (stamped with the target frame)
and, when the detection has keypoints, the transformed 3D keypoints. -/
def enrichDet (cfg : Config) (img : DepthImage) (intr : Intrinsics)
    (tr : Vec3 × Quat) (det : Detection) (b : Box3D) : Detection :=
  let b1 := transform_3d_box b tr.1 tr.2
  let b2 := { b1 with frame := cfg.targetFrame }
  let d1 := { det with bbox3d := some b2 }
  if det.kps.isEmpty then d1
  else
    let k3 := convert_keypoints_to_3d cfg img intr det
    let k3t := transform_3d_keypoints k3 tr.1 tr.2
    { d1 with kps3d := some { k3t with frame := cfg.targetFrame } }

/-- `process_detections` (source lines 162-201): empty output on an empty
input list or on transform-lookup failure (modelled as `none`, the caught
`TransformException`); otherwise each detection for which
`convert_bb_to_3d` yields a box is appended, enriched, to the output. -/
def process_detections (cfg : Config) (img : DepthImage) (intr : Intrinsics)
    (trOpt : Option (Vec3 × Quat)) (dets : List Detection) : List Detection :=
  match dets with
  | [] => []
  | _ =>
    match trOpt with
    | none => []
    | some tr =>
      dets.foldl (fun acc det =>
        match convert_bb_to_3d cfg img intr det with
        | none => acc
        | some b => acc ++ [enrichDet cfg img intr tr det b]) []

/-! ### Spec-side definitions

Definitions below transcribe the specification's wording (not the code),
for comparison with the code-derived definitions above. -/

/-- Spec wording: of a pair of candidate keypoints, keep the one present;
when both are present keep the higher-confidence one (ties keep the
second, i.e. even-id, candidate). -/
def specBest (a b : Option KP2D) : Option KP2D :=
  match a, b with
  | some u, some v => some (if u.score > v.score then u else v)
  | some u, none => some u
  | none, some v => some v
  | none, none => none

/-- Spec wording: the upper (shoulder) anchor candidate among ids {5, 6}. -/
def specUpper (kps : List KP2D) : Option KP2D :=
  specBest (kps.find? (fun p => p.id == 5)) (kps.find? (fun p => p.id == 6))

/-- Spec wording: the lower (hip) anchor candidate among ids {11, 12}. -/
def specLower (kps : List KP2D) : Option KP2D :=
  specBest (kps.find? (fun p => p.id == 11)) (kps.find? (fun p => p.id == 12))

/-- Spec wording of the anchor rule: midpoint of upper and lower candidates
when both are present, the single candidate's pixel when one side is
present, and the box's geometric center otherwise. -/
def specAnchorOf (det : Detection) : ℚ × ℚ :=
  match specUpper det.kps, specLower det.kps with
  | some u, some d => ((u.x + d.x) / 2, (u.y + d.y) / 2)
  | some u, none => (u.x, u.y)
  | none, some d => (d.x, d.y)
  | none, none => (det.bcx, det.bcy)

/-- The integer anchor pixel that `convert_bb_to_3d` samples. -/
def anchorPixel (det : Detection) : ℤ × ℤ :=
  (pytrunc (resolveAnchor det).1, pytrunc (resolveAnchor det).2)

/-- The integer anchor pixel under the spec's anchor rule. -/
def specAnchorPixel (det : Detection) : ℤ × ℤ :=
  (pytrunc (specAnchorOf det).1, pytrunc (specAnchorOf det).2)

/-- Spec wording of the ROI (claim reading with inclusive bounds): the
sub-array over the pixel rectangle bounded by `u_min = max(cx - w/2, 0)`
and `u_max = min(cx + w/2, width - 1)` (symmetric for v), with both bounds
attained, each value divided by the units divisor. -/
def roiRectIncl (cfg : Config) (img : DepthImage) (det : Detection) :
    List (List DVal) :=
  let cx := pytrunc det.bcx
  let cy := pytrunc det.bcy
  let sx := pytrunc det.bsx
  let sy := pytrunc det.bsy
  let uMin := max (cx - Int.fdiv sx 2) 0
  let uMax := min (cx + Int.fdiv sx 2) ((img.width : ℤ) - 1)
  let vMin := max (cy - Int.fdiv sy 2) 0
  let vMax := min (cy + Int.fdiv sy 2) ((img.height : ℤ) - 1)
  (List.range (vMax + 1 - vMin).toNat).map (fun (r : ℕ) =>
    (List.range (uMax + 1 - uMin).toNat).map (fun (c : ℕ) =>
      dvalDivQ (img.pix (vMin + (r : ℤ)).toNat (uMin + (c : ℤ)).toNat) cfg.divisor))

/-- Amended spec wording of the ROI: the sub-array over rows
`v_min ≤ v < v_max` and columns `u_min ≤ u < u_max` (upper bounds
exclusive), each value divided by the units divisor. -/
def roiRectHalfOpen (cfg : Config) (img : DepthImage) (det : Detection) :
    List (List DVal) :=
  let cx := pytrunc det.bcx
  let cy := pytrunc det.bcy
  let sx := pytrunc det.bsx
  let sy := pytrunc det.bsy
  let uMin := max (cx - Int.fdiv sx 2) 0
  let uMax := min (cx + Int.fdiv sx 2) ((img.width : ℤ) - 1)
  let vMin := max (cy - Int.fdiv sy 2) 0
  let vMax := min (cy + Int.fdiv sy 2) ((img.height : ℤ) - 1)
  (List.range (vMax - vMin).toNat).map (fun (r : ℕ) =>
    (List.range (uMax - uMin).toNat).map (fun (c : ℕ) =>
      dvalDivQ (img.pix (vMin + (r : ℤ)).toNat (uMin + (c : ℤ)).toNat) cfg.divisor))

/-! ### Concrete fixtures used by witnesses and counterexamples -/

/-- A 2x2 depth image, uniformly 1000 raw units. -/
def imgTiny : DepthImage := ⟨2, 2, fun _ _ => DVal.fin 1000⟩

/-- Unit-focal intrinsics with principal point at the origin. -/
def kTiny : Intrinsics := ⟨1, 1, 0, 0, 2, 2⟩

/-- The default node configuration: divisor 1000, threshold 0.3 m. -/
def cfgStd : Config := ⟨1000, 3/10, "base_link"⟩

/-- A 2x2-pixel box centered at (1,1), no keypoints. -/
def detTiny : Detection := ⟨1, 1, 2, 2, [], none, none⟩

/-- The 200x200 depth image of the spec scenario: uniformly 2000 raw
units (in particular on the 40x40 region around (100,100)). -/
def imgWide : DepthImage := ⟨200, 200, fun _ _ => DVal.fin 2000⟩

/-- Intrinsics of the spec scenario: fx = fy = 500, px = py = 0. -/
def kWide : Intrinsics := ⟨500, 500, 0, 0, 200, 200⟩

/-- The detection of the spec scenario: box center (100,100), size
(40,40), no keypoints. -/
def detWide : Detection := ⟨100, 100, 40, 40, [], none, none⟩

/-- A detection carrying a single id-5 keypoint with score 0 at (50,60). -/
def detKpZero : Detection := ⟨100, 100, 40, 40, [⟨5, 0, 50, 60⟩], none, none⟩

/-- The spec's keypoint scenario: id 5 with score 0.9 at (50,60) and id 6
with score 0.3 at (52,61). -/
def detKpPair : Detection :=
  ⟨100, 100, 40, 40, [⟨5, 9/10, 50, 60⟩, ⟨6, 3/10, 52, 61⟩], none, none⟩

/-- A 3x3 depth image with pairwise-distinct samples. -/
def imgGrid : DepthImage := ⟨3, 3, fun r c => DVal.fin (3 * r + c + 1)⟩

/-- A 2x2-pixel box centered at (1,1) over `imgGrid`. -/
def detGrid : Detection := ⟨1, 1, 2, 2, [], none, none⟩

/-- Configuration with unit divisor, for keypoint fixtures. -/
def cfgUnit : Config := ⟨1, 3/10, "base_link"⟩

/-- An 8x8 depth image whose sample at (row, col) is `100*row + col + 7`. -/
def imgOct : DepthImage := ⟨8, 8, fun r c => DVal.fin (100 * r + c + 7)⟩

/-- Unit-focal intrinsics declaring an 8x8 image. -/
def kOct : Intrinsics := ⟨1, 1, 0, 0, 8, 8⟩

/-- A detection with one keypoint at pixel x = 40000, y = 3. -/
def detFarKp : Detection := ⟨4, 4, 2, 2, [⟨9, 1/2, 40000, 3⟩], none, none⟩

/-! ### Helper lemmas -/

theorem mapRangeConst {α : Type} (n : ℕ) (f : ℕ → α) (b : α) (h : ∀ i, f i = b) :
    (List.range n).map f = List.replicate n b := by
  rw [show f = fun _ => b from funext h, List.map_const', List.length_range]

theorem flattenReplicate {α : Type} (m n : ℕ) (a : α) :
    (List.replicate m (List.replicate n a)).flatten = List.replicate (m * n) a := by
  induction m with
  | zero => simp
  | succ k ih =>
    rw [List.replicate_succ, List.flatten_cons, ih,
      show (k + 1) * n = n + k * n by ring, List.replicate_add]

theorem allReplicate {α : Type} (n : ℕ) (a : α) (p : α → Bool) :
    (List.replicate n a).all p = ((n == 0) || p a) := by
  induction n with
  | zero => simp
  | succ k ih =>
    rw [List.replicate_succ, List.all_cons, ih]
    cases p a <;> simp

theorem anyReplicate {α : Type} (n : ℕ) (a : α) (p : α → Bool) :
    (List.replicate n a).any p = ((n != 0) && p a) := by
  induction n with
  | zero => simp
  | succ k ih =>
    rw [List.replicate_succ, List.any_cons, ih]
    cases p a <;> simp

theorem filterMapReplicate {α β : Type} (n : ℕ) (a : α) (b : β)
    (f : α → Option β) (h : f a = some b) :
    (List.replicate n a).filterMap f = List.replicate n b := by
  induction n with
  | zero => simp
  | succ k ih =>
    rw [List.replicate_succ, List.filterMap_cons, h, ih, List.replicate_succ]

theorem isEmptyReplicate {α : Type} (n : ℕ) (a : α) :
    (List.replicate n a).isEmpty = (n == 0) := by
  cases n <;> simp [List.replicate_succ]

theorem ratMeanReplicate (n : ℕ) (c : ℚ) (h : n ≠ 0) :
    ratMean (List.replicate n c) = c := by
  rw [ratMean, List.sum_replicate, List.length_replicate, nsmul_eq_mul]
  exact mul_div_cancel_left₀ c (Nat.cast_ne_zero.mpr h)

theorem foldlMaxConst (k : ℕ) (c : ℚ) :
    List.foldl max c (List.replicate k c) = c := by
  induction k with
  | zero => rfl
  | succ m ih => rw [List.replicate_succ, List.foldl_cons, max_self, ih]

theorem foldlMinConst (k : ℕ) (c : ℚ) :
    List.foldl min c (List.replicate k c) = c := by
  induction k with
  | zero => rfl
  | succ m ih => rw [List.replicate_succ, List.foldl_cons, min_self, ih]

theorem listMaxReplicate (n : ℕ) (c : ℚ) (h : n ≠ 0) :
    listMax (List.replicate n c) = c := by
  cases n with
  | zero => exact absurd rfl h
  | succ k => rw [List.replicate_succ, listMax, foldlMaxConst]

theorem listMinReplicate (n : ℕ) (c : ℚ) (h : n ≠ 0) :
    listMin (List.replicate n c) = c := by
  cases n with
  | zero => exact absurd rfl h
  | succ k => rw [List.replicate_succ, listMin, foldlMinConst]

theorem roiWideRows :
    roiRows cfgStd imgWide detWide = List.replicate 40 (List.replicate 40 (DVal.fin 2)) := by
  have h100 : pytrunc (100 : ℚ) = 100 := by norm_num [pytrunc]
  have h40 : pytrunc (40 : ℚ) = 40 := by norm_num [pytrunc]
  rw [roiRows]
  simp only [detWide, imgWide, cfgStd, h100, h40]
  norm_num [pySliceIdx, Int.fdiv, dvalDivQ]
  omega

theorem roiWideFlat :
    (roiRows cfgStd imgWide detWide).flatten = List.replicate 1600 (DVal.fin 2) := by
  rw [roiWideRows, flattenReplicate]

theorem leFoldlMax (t : List ℚ) : ∀ h : ℚ, h ≤ t.foldl max h := by
  induction t with
  | nil => intro h; exact le_refl h
  | cons a t ih => intro h; exact le_trans (le_max_left h a) (ih (max h a))

theorem foldlMinLe (t : List ℚ) : ∀ h : ℚ, t.foldl min h ≤ h := by
  induction t with
  | nil => intro h; exact le_refl h
  | cons a t ih => intro h; exact le_trans (ih (min h a)) (min_le_left h a)

theorem listMinLeListMax (l : List ℚ) (hl : l ≠ []) : listMin l ≤ listMax l := by
  cases l with
  | nil => exact absurd rfl hl
  | cons a t => exact le_trans (foldlMinLe t a) (leFoldlMax t a)

/-! ### Claim theorems -/

/-- C7: for a box centered at (100,100) of size (40,40), no keypoints, a
depth frame uniformly 2000 raw units on the 40x40 region around the
center, divisor 1000, fx = fy = 500 and px = py = 0, `convert_bb_to_3d`
returns center.z = 2, size.z = 0, center.x = center.y = 0.4 = 2/5 and
size.x = 0.16 = 4/25. -/
theorem C7_scenario_box : convert_bb_to_3d cfgStd imgWide kWide detWide =
    some ⟨2/5, 2/5, 2, 4/25, 4/25, 0, ""⟩ := by
  have h100 : pytrunc (100 : ℚ) = 100 := by norm_num [pytrunc]
  have h40 : pytrunc (40 : ℚ) = 40 := by norm_num [pytrunc]
  have hanch : resolveAnchor detWide = (100, 100) := by
    simp [resolveAnchor, collectAnchors, detWide, h100]
  have hpos : posFinites (List.replicate 1600 (DVal.fin 2)) = List.replicate 1600 (2:ℚ) := by
    rw [posFinites]; apply filterMapReplicate; norm_num
  have hcons : consensusOf (List.replicate 1600 (DVal.fin 2)) 2 (3/10) = List.replicate 1600 (2:ℚ) := by
    rw [consensusOf]; apply filterMapReplicate; norm_num
  simp only [convert_bb_to_3d, roiWideFlat, hanch]
  simp only [detWide, imgWide, kWide, cfgStd, h100, h40]
  simp only [allReplicate, anyReplicate, hpos, isEmptyReplicate,
    ratMeanReplicate 1600 2 (by norm_num), hcons,
    listMaxReplicate 1600 2 (by norm_num), listMinReplicate 1600 2 (by norm_num)]
  norm_num [dvalDivQ, DVal.isNan, DVal.isInf, DVal.isFinite]

/-- C1: whenever `convert_bb_to_3d` yields a 3D box, the box's center.z is
the mean of the strictly-positive finite ROI depths (in meters) — not the
anchor-pixel sample — and its size.z is max minus min over exactly the ROI
samples whose absolute difference from that mean is at most
`maximum_detection_threshold`. -/
theorem C1_center_z_is_robust_mean (cfg : Config) (img : DepthImage) (intr : Intrinsics)
    (det : Detection) (b : Box3D)
    (h : convert_bb_to_3d cfg img intr det = some b) :
    b.cz = ratMean (posFinites ((roiRows cfg img det).flatten)) ∧
    b.sz = listMax (consensusOf ((roiRows cfg img det).flatten)
        (ratMean (posFinites ((roiRows cfg img det).flatten))) cfg.maxThreshold) -
      listMin (consensusOf ((roiRows cfg img det).flatten)
        (ratMean (posFinites ((roiRows cfg img det).flatten))) cfg.maxThreshold) := by
  simp only [convert_bb_to_3d] at h
  split_ifs at h
  rw [Option.some.injEq] at h
  subst h
  exact ⟨rfl, rfl⟩

/-- Witness for C1: on a 2x2 depth frame of uniform 1000 raw units with a
2x2 box at (1,1), `convert_bb_to_3d` yields a box and its center.z and
size.z agree with the robust-mean formulas. -/
theorem C1_center_z_is_robust_mean_witness :
    convert_bb_to_3d cfgStd imgTiny kTiny detTiny = some ⟨1, 1, 1, 2, 2, 0, ""⟩ ∧
    ((Box3D.mk 1 1 1 2 2 0 "").cz =
        ratMean (posFinites ((roiRows cfgStd imgTiny detTiny).flatten)) ∧
      (Box3D.mk 1 1 1 2 2 0 "").sz =
        listMax (consensusOf ((roiRows cfgStd imgTiny detTiny).flatten)
            (ratMean (posFinites ((roiRows cfgStd imgTiny detTiny).flatten)))
            cfgStd.maxThreshold) -
          listMin (consensusOf ((roiRows cfgStd imgTiny detTiny).flatten)
            (ratMean (posFinites ((roiRows cfgStd imgTiny detTiny).flatten)))
            cfgStd.maxThreshold)) := by
  have h : convert_bb_to_3d cfgStd imgTiny kTiny detTiny = some ⟨1, 1, 1, 2, 2, 0, ""⟩ := by
    with_unfolding_all decide
  exact ⟨h, C1_center_z_is_robust_mean cfgStd imgTiny kTiny detTiny _ h⟩

/-- C9: every transformed box has non-negative size components (the code
takes component-wise absolute values), and every box produced by
`convert_bb_to_3d` has non-negative size.z (a max-minus-min difference). -/
theorem C9_size_nonneg :
    (∀ (b : Box3D) (t : Vec3) (q : Quat),
      0 ≤ (transform_3d_box b t q).sx ∧ 0 ≤ (transform_3d_box b t q).sy ∧
        0 ≤ (transform_3d_box b t q).sz) ∧
    (∀ (cfg : Config) (img : DepthImage) (intr : Intrinsics) (det : Detection) (b : Box3D),
      convert_bb_to_3d cfg img intr det = some b → 0 ≤ b.sz) := by
  constructor
  · intro b t q
    exact ⟨abs_nonneg _, abs_nonneg _, abs_nonneg _⟩
  · intro cfg img intr det b h
    simp only [convert_bb_to_3d] at h
    split_ifs at h with h1 h2 h3 h4 h5 h6
    rw [Option.some.injEq] at h
    subst h
    have hne : consensusOf ((roiRows cfg img det).flatten)
        (ratMean (posFinites ((roiRows cfg img det).flatten))) cfg.maxThreshold ≠ [] := by
      simpa [List.isEmpty_iff] using h6
    exact sub_nonneg.mpr (listMinLeListMax _ hne)

/-- Witness for C9: the box produced on the 2x2 uniform fixture has
non-negative size.z. -/
theorem C9_size_nonneg_witness : 0 ≤ (Box3D.mk 1 1 1 2 2 0 "").sz :=
  C9_size_nonneg.2 cfgStd imgTiny kTiny detTiny _ (by with_unfolding_all decide)

theorem processFold (cfg : Config) (img : DepthImage) (intr : Intrinsics)
    (tr : Vec3 × Quat) (l : List Detection) : ∀ acc : List Detection,
    l.foldl (fun acc det =>
      match convert_bb_to_3d cfg img intr det with
      | none => acc
      | some b => acc ++ [enrichDet cfg img intr tr det b]) acc
    = acc ++ l.filterMap (fun det =>
        (convert_bb_to_3d cfg img intr det).map (enrichDet cfg img intr tr det)) := by
  induction l with
  | nil => intro acc; simp
  | cons d l ih =>
    intro acc
    rw [List.foldl_cons, List.filterMap_cons]
    cases hc : convert_bb_to_3d cfg img intr d with
    | none => simp [hc, ih]
    | some b => simp [hc, ih, List.append_assoc]

/-- C2: `process_detections` outputs exactly the input-order subsequence
of detections for which `convert_bb_to_3d` yields a box, each enriched
with its (transformed) 3D box; the output is empty when the input list is
empty or when the transform lookup fails. -/
theorem C2_process_detections_filter (cfg : Config) (img : DepthImage) (intr : Intrinsics) :
    (∀ dets : List Detection, process_detections cfg img intr none dets = []) ∧
    (∀ trOpt : Option (Vec3 × Quat), process_detections cfg img intr trOpt [] = []) ∧
    (∀ (tr : Vec3 × Quat) (dets : List Detection),
      process_detections cfg img intr (some tr) dets =
        dets.filterMap (fun det =>
          (convert_bb_to_3d cfg img intr det).map (enrichDet cfg img intr tr det))) := by
  refine ⟨?_, ?_, ?_⟩
  · intro dets; cases dets <;> rfl
  · intro trOpt; rfl
  · intro tr dets
    cases dets with
    | nil => rfl
    | cons d l =>
      show (d :: l).foldl _ [] = _
      rw [processFold]
      simp

theorem zipFoldKP (cfg : Config) (img : DepthImage) (intr : Intrinsics)
    (kps : List KP2D) : ∀ acc : List KP3D,
    ((kps.map (projectKP cfg img intr)).zip kps).foldl (fun acc pd =>
      if hasNan3 pd.1 then acc
      else acc ++ [⟨pd.1.1, pd.1.2.1, pd.1.2.2, pd.2.id, pd.2.score⟩]) acc
    = acc ++ kps.filterMap (fun p =>
        if hasNan3 (projectKP cfg img intr p) then none
        else some ⟨(projectKP cfg img intr p).1, (projectKP cfg img intr p).2.1,
          (projectKP cfg img intr p).2.2, p.id, p.score⟩) := by
  induction kps with
  | nil => intro acc; simp
  | cons p l ih =>
    intro acc
    rw [List.map_cons, List.zip_cons_cons, List.foldl_cons, List.filterMap_cons]
    cases hn : hasNan3 (projectKP cfg img intr p) with
    | true => simp [hn, ih]
    | false => simp [hn, ih, List.append_assoc]

theorem posFinitesNil (roi : List DVal)
    (h : (roi.any DVal.isFinite &&
      roi.any (fun v => v.isFinite && !(v == DVal.fin 0))) = false) :
    posFinites roi = [] := by
  rw [posFinites, List.filterMap_eq_nil_iff]
  intro a ha
  cases a with
  | nan => rfl
  | inf => rfl
  | ninf => rfl
  | fin q =>
    by_cases hq : 0 < q
    · have hA : roi.any DVal.isFinite = true :=
        List.any_eq_true.mpr ⟨DVal.fin q, ha, rfl⟩
      have hB : roi.any (fun v => v.isFinite && !(v == DVal.fin 0)) = true :=
        List.any_eq_true.mpr ⟨DVal.fin q, ha, by
          simp [DVal.isFinite]
          exact ne_of_gt hq⟩
      rw [hA, hB] at h
      exact absurd h (by simp)
    · simp [hq]

/-- C4: `convert_bb_to_3d` yields no box exactly when the cropped ROI has
no nonzero value, or the resolved anchor pixel is out of the image bounds,
or the depth sampled at the anchor is NaN, zero or infinite, or no
strictly-positive finite ROI sample exists, or the consensus mask selects
no samples; every failure returns `none` rather than raising. -/
theorem C4_no_box_iff (cfg : Config) (img : DepthImage) (intr : Intrinsics)
    (det : Detection) :
    convert_bb_to_3d cfg img intr det = none ↔
      ((roiRows cfg img det).flatten.all (fun v => v == DVal.fin 0) = true
       ∨ ((anchorPixel det).1 < 0 ∨ (img.width : ℤ) ≤ (anchorPixel det).1
          ∨ (anchorPixel det).2 < 0 ∨ (img.height : ℤ) ≤ (anchorPixel det).2)
       ∨ ((dvalDivQ (img.pix (anchorPixel det).2.toNat (anchorPixel det).1.toNat)
            cfg.divisor).isNan = true
          ∨ dvalDivQ (img.pix (anchorPixel det).2.toNat (anchorPixel det).1.toNat)
              cfg.divisor = DVal.fin 0
          ∨ (dvalDivQ (img.pix (anchorPixel det).2.toNat (anchorPixel det).1.toNat)
              cfg.divisor).isInf = true)
       ∨ posFinites ((roiRows cfg img det).flatten) = []
       ∨ consensusOf ((roiRows cfg img det).flatten)
           (ratMean (posFinites ((roiRows cfg img det).flatten))) cfg.maxThreshold = []) := by
  simp only [convert_bb_to_3d, anchorPixel]
  split_ifs with h1 h2 h3 h4 h5 h6
  · exact iff_of_true rfl (Or.inl h1)
  · exact iff_of_true rfl (Or.inr (Or.inl h2))
  · exact iff_of_true rfl (Or.inr (Or.inr (Or.inl (by simpa [or_assoc] using h3))))
  · exact iff_of_true rfl
      (Or.inr (Or.inr (Or.inr (Or.inl (List.isEmpty_iff.mp h5)))))
  · exact iff_of_true rfl
      (Or.inr (Or.inr (Or.inr (Or.inr (List.isEmpty_iff.mp h6)))))
  · refine iff_of_false (by simp) ?_
    intro hdisj
    rcases hdisj with hd | hd | hd | hd | hd
    · exact h1 hd
    · exact h2 hd
    · rcases hd with hd | hd | hd
      · simp [hd] at h3
      · simp [hd, DVal.isNan] at h3
      · simp [hd] at h3
    · simp [hd] at h5
    · simp [hd] at h6
  · exact iff_of_true rfl
      (Or.inr (Or.inr (Or.inr (Or.inl (posFinitesNil _ (by simpa using h4))))))

/-- C6: `convert_keypoints_to_3d` outputs, in input order, exactly the
projections of the keypoints whose 3D position has no NaN component,
carrying each surviving keypoint's id and score over unchanged. -/
theorem C6_keypoints_filter (cfg : Config) (img : DepthImage) (intr : Intrinsics)
    (det : Detection) :
    convert_keypoints_to_3d cfg img intr det =
      ⟨det.kps.filterMap (fun p =>
        if hasNan3 (projectKP cfg img intr p) then none
        else some ⟨(projectKP cfg img intr p).1, (projectKP cfg img intr p).2.1,
          (projectKP cfg img intr p).2.2, p.id, p.score⟩), ""⟩ := by
  rw [convert_keypoints_to_3d]
  rw [zipFoldKP]
  rfl

theorem qvRound (q : Quat) (v : Vec3) (h : q.w^2 + q.x^2 + q.y^2 + q.z^2 = 1) :
    qv_mult (qconj q) (qv_mult q v) = v := by
  obtain ⟨w, x, y, z⟩ := q
  obtain ⟨a, b, c⟩ := v
  simp only [qv_mult, qconj, vcross, vadd, vsmul] at *
  refine Vec3.ext ?_ ?_ ?_
  · linear_combination (4*((x^2+y^2+z^2)*a - (x*a+y*b+z*c)*x)) * h
  · linear_combination (4*((x^2+y^2+z^2)*b - (x*a+y*b+z*c)*y)) * h
  · linear_combination (4*((x^2+y^2+z^2)*c - (x*a+y*b+z*c)*z)) * h

/-- C8: for a unit quaternion, rotating with `qv_mult`, translating, then
undoing the translation and rotating with the conjugate quaternion returns
the original vector; and `qv_mult` computes the Rodrigues form
`v + 2*(q0*(qvec x v) + qvec x (qvec x v))`. -/
theorem C8_qv_mult_roundtrip (q : Quat) (v t : Vec3)
    (h : q.w^2 + q.x^2 + q.y^2 + q.z^2 = 1) :
    qv_mult (qconj q) (vsub (vadd (qv_mult q v) t) t) = v ∧
    qv_mult q v = vadd v (vsmul 2 (vadd (vsmul q.w (vcross ⟨q.x, q.y, q.z⟩ v))
      (vcross ⟨q.x, q.y, q.z⟩ (vcross ⟨q.x, q.y, q.z⟩ v)))) := by
  constructor
  · have hvt : vsub (vadd (qv_mult q v) t) t = qv_mult q v := by
      refine Vec3.ext ?_ ?_ ?_ <;> simp [vsub, vadd]
    rw [hvt]
    exact qvRound q v h
  · rfl

/-- Witness for C8: the round-trip law at the non-trivial unit quaternion
(1/2, 1/2, 1/2, 1/2), vector (1,2,3) and translation (4,5,6). -/
theorem C8_qv_mult_roundtrip_witness :
    ((1:ℚ)/2)^2 + ((1:ℚ)/2)^2 + ((1:ℚ)/2)^2 + ((1:ℚ)/2)^2 = 1 ∧
    qv_mult (qconj ⟨1/2, 1/2, 1/2, 1/2⟩)
      (vsub (vadd (qv_mult ⟨1/2, 1/2, 1/2, 1/2⟩ ⟨1, 2, 3⟩) ⟨4, 5, 6⟩) ⟨4, 5, 6⟩) =
      ⟨1, 2, 3⟩ :=
  ⟨by norm_num,
    (C8_qv_mult_roundtrip ⟨1/2, 1/2, 1/2, 1/2⟩ ⟨1, 2, 3⟩ ⟨4, 5, 6⟩ (by norm_num)).1⟩

set_option maxRecDepth 8000 in
/-- C10: keypoint pixel coordinates are cast to numpy int16 before
clamping, i.e. reduced modulo 2^16 into [-32768, 32767]; in particular
x = 40000 becomes -25536, is clamped to 0, and `convert_keypoints_to_3d`
samples column 0 (depth 307 on the fixture) rather than the original
coordinate. -/
theorem C10_int16_wrap :
    (∀ z : ℤ, toInt16 z % 65536 = z % 65536 ∧ -32768 ≤ toInt16 z ∧ toInt16 z ≤ 32767) ∧
    (∀ z : ℤ, toInt16 z = z ↔ (-32768 ≤ z ∧ z ≤ 32767)) ∧
    toInt16 40000 = -25536 ∧
    clampPy (toInt16 40000) 0 ((kOct.width : ℤ) - 1) = 0 ∧
    convert_keypoints_to_3d cfgUnit imgOct kOct detFarKp =
      ⟨[⟨DVal.fin 0, DVal.fin 921, DVal.fin 307, 9, 1/2⟩], ""⟩ := by
  refine ⟨?_, ?_, by decide, by with_unfolding_all decide, by with_unfolding_all decide⟩
  · intro z
    unfold toInt16
    omega
  · intro z
    unfold toInt16
    omega

theorem sliceRange (len : ℕ) (lo hi : ℤ) (hlo : 0 ≤ lo) (hhi : 0 ≤ hi)
    (hhi2 : hi ≤ (len : ℤ) - 1) :
    pySliceIdx len hi - pySliceIdx len lo = (hi - lo).toNat ∧
    (∀ r : ℕ, r < (hi - lo).toNat → pySliceIdx len lo + r = (lo + r).toNat) := by
  unfold pySliceIdx
  split_ifs <;> exact ⟨by omega, fun r hr => by omega⟩

set_option maxRecDepth 8000 in
/-- Counterexample for C5: on a 3x3 depth image with a 2x2 box centered at
(1,1), the ROI `convert_bb_to_3d` extracts is the 2x2 sub-array of rows
and columns 0..1, not the sub-array of the rectangle attaining both bounds
u_min = 0 and u_max = 2 (which would be 3x3): the numpy slice excludes its
upper bounds. -/
theorem C5_roi_counterexample :
    roiRows cfgStd imgGrid detGrid ≠ roiRectIncl cfgStd imgGrid detGrid ∧
    roiRows cfgStd imgGrid detGrid =
      [[DVal.fin (1/1000), DVal.fin (2/1000)], [DVal.fin (4/1000), DVal.fin (5/1000)]] := by
  with_unfolding_all decide

/-- C5 (amended): the extracted ROI is the sub-array over rows
`v_min <= v < v_max` and columns `u_min <= u < u_max` (upper bounds
exclusive), each value divided by the units divisor, provided the box's
right and bottom edges are at non-negative pixel coordinates (otherwise
Python's negative-index slice wrapping applies). -/
theorem C5_roi_amended (cfg : Config) (img : DepthImage) (det : Detection)
    (hu : 0 ≤ min (pytrunc det.bcx + Int.fdiv (pytrunc det.bsx) 2) ((img.width : ℤ) - 1))
    (hv : 0 ≤ min (pytrunc det.bcy + Int.fdiv (pytrunc det.bsy) 2) ((img.height : ℤ) - 1)) :
    roiRows cfg img det = roiRectHalfOpen cfg img det := by
  rw [roiRows, roiRectHalfOpen]
  obtain ⟨hcv, hbv⟩ := sliceRange img.height
    (max (pytrunc det.bcy - Int.fdiv (pytrunc det.bsy) 2) 0)
    (min (pytrunc det.bcy + Int.fdiv (pytrunc det.bsy) 2) ((img.height : ℤ) - 1))
    (le_max_right _ 0) hv (min_le_right _ _)
  obtain ⟨hcu, hbu⟩ := sliceRange img.width
    (max (pytrunc det.bcx - Int.fdiv (pytrunc det.bsx) 2) 0)
    (min (pytrunc det.bcx + Int.fdiv (pytrunc det.bsx) 2) ((img.width : ℤ) - 1))
    (le_max_right _ 0) hu (min_le_right _ _)
  rw [hcv, hcu]
  refine List.map_congr_left ?_
  intro r hr
  rw [List.mem_range] at hr
  rw [hbv r hr]
  refine List.map_congr_left ?_
  intro c hc
  rw [List.mem_range] at hc
  rw [hbu c hc]

set_option maxRecDepth 8000 in
/-- Witness for C5 (amended): on the 3x3 fixture the hypotheses hold and
the extracted ROI equals the half-open-rectangle sub-array. -/
theorem C5_roi_amended_witness :
    (0 ≤ min (pytrunc detGrid.bcx + Int.fdiv (pytrunc detGrid.bsx) 2)
        ((imgGrid.width : ℤ) - 1) ∧
      0 ≤ min (pytrunc detGrid.bcy + Int.fdiv (pytrunc detGrid.bsy) 2)
        ((imgGrid.height : ℤ) - 1)) ∧
    roiRows cfgStd imgGrid detGrid = roiRectHalfOpen cfgStd imgGrid detGrid :=
  ⟨⟨by with_unfolding_all decide, by with_unfolding_all decide⟩,
    C5_roi_amended cfgStd imgGrid detGrid
      (by with_unfolding_all decide) (by with_unfolding_all decide)⟩

theorem lenLeOne {α : Type} (l : List α) (h : l.length ≤ 1) :
    l = [] ∨ ∃ a, l = [a] := by
  cases l with
  | nil => exact Or.inl rfl
  | cons a t =>
    cases t with
    | nil => exact Or.inr ⟨a, rfl⟩
    | cons b t2 => exfalso; simp at h

theorem findHeadFilter {α : Type} (l : List α) (p : α → Bool) :
    l.find? p = (l.filter p).head? := by
  induction l with
  | nil => rfl
  | cons a t ih =>
    cases h : p a with
    | true => rw [List.find?_cons_of_pos _ h, List.filter_cons_of_pos h]; rfl
    | false =>
      have h2 : ¬p a = true := by simp [h]
      rw [List.find?_cons_of_neg _ h2, List.filter_cons_of_neg h2, ih]

theorem kpStepKp5 (a : KPAcc) (p : KP2D) :
    (kpStep a p).kp5 = if p.id = 5 then p else a.kp5 := by
  unfold kpStep; split_ifs <;> rfl

theorem kpStepKp6 (a : KPAcc) (p : KP2D) :
    (kpStep a p).kp6 = if p.id = 6 then p else a.kp6 := by
  unfold kpStep; split_ifs <;> first | rfl | simp_all

theorem kpStepKp11 (a : KPAcc) (p : KP2D) :
    (kpStep a p).kp11 = if p.id = 11 then p else a.kp11 := by
  unfold kpStep; split_ifs <;> first | rfl | simp_all

theorem kpStepKp12 (a : KPAcc) (p : KP2D) :
    (kpStep a p).kp12 = if p.id = 12 then p else a.kp12 := by
  unfold kpStep; split_ifs <;> first | rfl | simp_all

theorem kpStepUp (a : KPAcc) (p : KP2D) :
    (kpStep a p).upDetected = (a.upDetected || (p.id == 5 || p.id == 6)) := by
  unfold kpStep; split_ifs <;> simp [*]

theorem kpStepDown (a : KPAcc) (p : KP2D) :
    (kpStep a p).downDetected = (a.downDetected || (p.id == 11 || p.id == 12)) := by
  unfold kpStep; split_ifs <;> simp [*]

theorem collectUpEq (kps : List KP2D) : ∀ acc : KPAcc,
    (kps.foldl kpStep acc).upDetected =
      (acc.upDetected || kps.any (fun p => p.id == 5 || p.id == 6)) := by
  induction kps with
  | nil => intro acc; simp
  | cons p l ih =>
    intro acc
    rw [List.foldl_cons, ih, List.any_cons, kpStepUp, Bool.or_assoc]

theorem collectDownEq (kps : List KP2D) : ∀ acc : KPAcc,
    (kps.foldl kpStep acc).downDetected =
      (acc.downDetected || kps.any (fun p => p.id == 11 || p.id == 12)) := by
  induction kps with
  | nil => intro acc; simp
  | cons p l ih =>
    intro acc
    rw [List.foldl_cons, ih, List.any_cons, kpStepDown, Bool.or_assoc]

theorem collectKp5Eq (kps : List KP2D) : ∀ acc : KPAcc,
    (kps.foldl kpStep acc).kp5 =
      (kps.filter (fun p => p.id == 5)).foldl (fun _ q => q) acc.kp5 := by
  induction kps with
  | nil => intro acc; rfl
  | cons p l ih =>
    intro acc
    rw [List.foldl_cons, ih, List.filter_cons]
    by_cases h : p.id = 5
    · simp [h, kpStepKp5]
    · simp [h, kpStepKp5]

theorem collectKp6Eq (kps : List KP2D) : ∀ acc : KPAcc,
    (kps.foldl kpStep acc).kp6 =
      (kps.filter (fun p => p.id == 6)).foldl (fun _ q => q) acc.kp6 := by
  induction kps with
  | nil => intro acc; rfl
  | cons p l ih =>
    intro acc
    rw [List.foldl_cons, ih, List.filter_cons]
    by_cases h : p.id = 6
    · simp [h, kpStepKp6]
    · simp [h, kpStepKp6]

theorem collectKp11Eq (kps : List KP2D) : ∀ acc : KPAcc,
    (kps.foldl kpStep acc).kp11 =
      (kps.filter (fun p => p.id == 11)).foldl (fun _ q => q) acc.kp11 := by
  induction kps with
  | nil => intro acc; rfl
  | cons p l ih =>
    intro acc
    rw [List.foldl_cons, ih, List.filter_cons]
    by_cases h : p.id = 11
    · simp [h, kpStepKp11]
    · simp [h, kpStepKp11]

theorem collectKp12Eq (kps : List KP2D) : ∀ acc : KPAcc,
    (kps.foldl kpStep acc).kp12 =
      (kps.filter (fun p => p.id == 12)).foldl (fun _ q => q) acc.kp12 := by
  induction kps with
  | nil => intro acc; rfl
  | cons p l ih =>
    intro acc
    rw [List.foldl_cons, ih, List.filter_cons]
    by_cases h : p.id = 12
    · simp [h, kpStepKp12]
    · simp [h, kpStepKp12]

theorem anyOrSplit {α : Type} (l : List α) (p q : α → Bool) :
    l.any (fun x => p x || q x) = (l.any p || l.any q) := by
  induction l with
  | nil => rfl
  | cons a t ih =>
    simp only [List.any_cons, ih]
    cases p a <;> cases q a <;> cases t.any p <;> cases t.any q <;> rfl

theorem anyIffFilterNe {α : Type} (l : List α) (p : α → Bool) :
    l.any p = !(l.filter p).isEmpty := by
  induction l with
  | nil => rfl
  | cons a t ih =>
    rw [List.any_cons, List.filter_cons]
    cases h : p a
    · simp [ih]
    · simp

theorem upSideResolve (kps : List KP2D)
    (h5 : (kps.filter (fun p => p.id == 5)).length ≤ 1)
    (h6 : (kps.filter (fun p => p.id == 6)).length ≤ 1)
    (hpos : ∀ p ∈ kps, 0 < p.score) :
    ((collectAnchors kps).upDetected = false ∧ specUpper kps = none) ∨
    ((collectAnchors kps).upDetected = true ∧
      specUpper kps = some (if (collectAnchors kps).kp5.score > (collectAnchors kps).kp6.score
        then (collectAnchors kps).kp5 else (collectAnchors kps).kp6)) := by
  have hup : (collectAnchors kps).upDetected =
      (kps.any (fun p => p.id == 5) || kps.any (fun p => p.id == 6)) := by
    rw [collectAnchors, collectUpEq, anyOrSplit, Bool.false_or]
  have hk5 : (collectAnchors kps).kp5 =
      (kps.filter (fun p => p.id == 5)).foldl (fun _ q => q) ⟨0, 0, 0, 0⟩ :=
    collectKp5Eq kps {}
  have hk6 : (collectAnchors kps).kp6 =
      (kps.filter (fun p => p.id == 6)).foldl (fun _ q => q) ⟨0, 0, 0, 0⟩ :=
    collectKp6Eq kps {}
  have ha5 := anyIffFilterNe kps (fun p => p.id == 5)
  have ha6 := anyIffFilterNe kps (fun p => p.id == 6)
  rcases lenLeOne _ h5 with e5 | ⟨p5, e5⟩ <;> rcases lenLeOne _ h6 with e6 | ⟨p6, e6⟩
  · left
    refine ⟨?_, ?_⟩
    · rw [hup, ha5, ha6, e5, e6]; rfl
    · rw [specUpper, findHeadFilter, findHeadFilter, e5, e6]; rfl
  · right
    have hm6 : p6 ∈ kps.filter (fun p => p.id == 6) := by
      rw [e6]; exact List.mem_singleton_self p6
    have hp6 : 0 < p6.score := hpos p6 (List.mem_of_mem_filter hm6)
    refine ⟨?_, ?_⟩
    · rw [hup, ha5, ha6, e5, e6]; rfl
    · rw [specUpper, findHeadFilter, findHeadFilter, e5, e6, hk5, hk6, e5, e6]
      simp only [List.head?_nil, List.head?_cons, List.foldl_nil, List.foldl_cons, specBest]
      rw [if_neg (lt_asymm hp6)]
  · right
    have hm5 : p5 ∈ kps.filter (fun p => p.id == 5) := by
      rw [e5]; exact List.mem_singleton_self p5
    have hp5 : 0 < p5.score := hpos p5 (List.mem_of_mem_filter hm5)
    refine ⟨?_, ?_⟩
    · rw [hup, ha5, ha6, e5, e6]; rfl
    · rw [specUpper, findHeadFilter, findHeadFilter, e5, e6, hk5, hk6, e5, e6]
      simp only [List.head?_nil, List.head?_cons, List.foldl_nil, List.foldl_cons, specBest]
      rw [if_pos hp5]
  · right
    refine ⟨?_, ?_⟩
    · rw [hup, ha5, ha6, e5, e6]; rfl
    · rw [specUpper, findHeadFilter, findHeadFilter, e5, e6, hk5, hk6, e5, e6]
      simp only [List.head?_nil, List.head?_cons, List.foldl_nil, List.foldl_cons, specBest]

theorem downSideResolve (kps : List KP2D)
    (h11 : (kps.filter (fun p => p.id == 11)).length ≤ 1)
    (h12 : (kps.filter (fun p => p.id == 12)).length ≤ 1)
    (hpos : ∀ p ∈ kps, 0 < p.score) :
    ((collectAnchors kps).downDetected = false ∧ specLower kps = none) ∨
    ((collectAnchors kps).downDetected = true ∧
      specLower kps = some (if (collectAnchors kps).kp11.score > (collectAnchors kps).kp12.score
        then (collectAnchors kps).kp11 else (collectAnchors kps).kp12)) := by
  have hdown : (collectAnchors kps).downDetected =
      (kps.any (fun p => p.id == 11) || kps.any (fun p => p.id == 12)) := by
    rw [collectAnchors, collectDownEq, anyOrSplit, Bool.false_or]
  have hk11 : (collectAnchors kps).kp11 =
      (kps.filter (fun p => p.id == 11)).foldl (fun _ q => q) ⟨0, 0, 0, 0⟩ :=
    collectKp11Eq kps {}
  have hk12 : (collectAnchors kps).kp12 =
      (kps.filter (fun p => p.id == 12)).foldl (fun _ q => q) ⟨0, 0, 0, 0⟩ :=
    collectKp12Eq kps {}
  have ha11 := anyIffFilterNe kps (fun p => p.id == 11)
  have ha12 := anyIffFilterNe kps (fun p => p.id == 12)
  rcases lenLeOne _ h11 with e11 | ⟨p11, e11⟩ <;> rcases lenLeOne _ h12 with e12 | ⟨p12, e12⟩
  · left
    refine ⟨?_, ?_⟩
    · rw [hdown, ha11, ha12, e11, e12]; rfl
    · rw [specLower, findHeadFilter, findHeadFilter, e11, e12]; rfl
  · right
    have hm12 : p12 ∈ kps.filter (fun p => p.id == 12) := by
      rw [e12]; exact List.mem_singleton_self p12
    have hp12 : 0 < p12.score := hpos p12 (List.mem_of_mem_filter hm12)
    refine ⟨?_, ?_⟩
    · rw [hdown, ha11, ha12, e11, e12]; rfl
    · rw [specLower, findHeadFilter, findHeadFilter, e11, e12, hk11, hk12, e11, e12]
      simp only [List.head?_nil, List.head?_cons, List.foldl_nil, List.foldl_cons, specBest]
      rw [if_neg (lt_asymm hp12)]
  · right
    have hm11 : p11 ∈ kps.filter (fun p => p.id == 11) := by
      rw [e11]; exact List.mem_singleton_self p11
    have hp11 : 0 < p11.score := hpos p11 (List.mem_of_mem_filter hm11)
    refine ⟨?_, ?_⟩
    · rw [hdown, ha11, ha12, e11, e12]; rfl
    · rw [specLower, findHeadFilter, findHeadFilter, e11, e12, hk11, hk12, e11, e12]
      simp only [List.head?_nil, List.head?_cons, List.foldl_nil, List.foldl_cons, specBest]
      rw [if_pos hp11]
  · right
    refine ⟨?_, ?_⟩
    · rw [hdown, ha11, ha12, e11, e12]; rfl
    · rw [specLower, findHeadFilter, findHeadFilter, e11, e12, hk11, hk12, e11, e12]
      simp only [List.head?_nil, List.head?_cons, List.foldl_nil, List.foldl_cons, specBest]

theorem pytruncIdem (z : ℤ) : pytrunc ((z : ℤ) : ℚ) = z := by
  unfold pytrunc
  split_ifs <;> simp

/-- Counterexample for C3: a detection carrying only an id-5 keypoint at
(50,60) with score 0 (so exactly one side is present): `convert_bb_to_3d`
resolves the anchor to the default-constructed id-6 keypoint's position
(0,0), not to the carried keypoint's pixel, because the comparison
`kp5.score > kp6.score` with the default (score 0) fails. -/
theorem C3_anchor_counterexample :
    (∃ p ∈ detKpZero.kps, p.id = 5 ∨ p.id = 6) ∧
    (∀ p ∈ detKpZero.kps, p.id ≠ 11 ∧ p.id ≠ 12) ∧
    resolveAnchor detKpZero ≠ (50, 60) ∧
    resolveAnchor detKpZero = (0, 0) := by
  with_unfolding_all decide

/-- C3 (amended): the anchor rule as claimed — higher-confidence candidate
per pair (ties keeping the even id), midpoint when both sides are present,
the single candidate's pixel when one side is present, the box center
otherwise — holds for every detection whose carried keypoints all have
strictly positive scores and whose special ids 5/6/11/12 occur at most
once each. -/
theorem C3_anchor_amended (det : Detection)
    (h5 : (det.kps.filter (fun p => p.id == 5)).length ≤ 1)
    (h6 : (det.kps.filter (fun p => p.id == 6)).length ≤ 1)
    (h11 : (det.kps.filter (fun p => p.id == 11)).length ≤ 1)
    (h12 : (det.kps.filter (fun p => p.id == 12)).length ≤ 1)
    (hpos : ∀ p ∈ det.kps, 0 < p.score) :
    anchorPixel det = specAnchorPixel det := by
  simp only [anchorPixel, specAnchorPixel, resolveAnchor, specAnchorOf]
  rcases upSideResolve det.kps h5 h6 hpos with ⟨hu, hsu⟩ | ⟨hu, hsu⟩ <;>
    rcases downSideResolve det.kps h11 h12 hpos with ⟨hd, hsd⟩ | ⟨hd, hsd⟩ <;>
    rw [hu, hd, hsu, hsd] <;>
    simp [pytruncIdem]

/-- Witness for C3 (amended): the spec scenario — id 5 with score 0.9 at
(50,60) and id 6 with score 0.3 at (52,61) — satisfies the hypotheses and
resolves the anchor to id 5's pixel (50,60). -/
theorem C3_anchor_amended_witness :
    ((detKpPair.kps.filter (fun p => p.id == 5)).length ≤ 1 ∧
     (detKpPair.kps.filter (fun p => p.id == 6)).length ≤ 1 ∧
     (detKpPair.kps.filter (fun p => p.id == 11)).length ≤ 1 ∧
     (detKpPair.kps.filter (fun p => p.id == 12)).length ≤ 1 ∧
     ∀ p ∈ detKpPair.kps, 0 < p.score) ∧
    anchorPixel detKpPair = specAnchorPixel detKpPair ∧
    anchorPixel detKpPair = (50, 60) := by
  refine ⟨⟨by decide, by decide, by decide, by decide, by with_unfolding_all decide⟩,
    C3_anchor_amended detKpPair (by decide) (by decide) (by decide) (by decide)
      (by with_unfolding_all decide),
    by with_unfolding_all decide⟩
